import Mathlib

/-!
Verification of the moretranz-halftone rendering service.

The repository is a small corpus of variants of one Express/sharp server.
Each variant is embedded in its own namespace:

* `Dtf`        — the DTF-safe variant (src/server.js, second section:
                 `makeColorHalftonePng` with `dtfSafe`, `dotGain`, `minDot`,
                 `alphaThreshold`, `minCoverage`; `ACTIVE_JOBS` guard).
* `AlphaCrop`  — the alpha-crop variant (src/server.js, first section:
                 `findAlphaBBox`, crop-then-resize, cell-count guard,
                 strength-driven dot geometry).
* `AlphaCropR` — the real-valued dot-geometry of the alpha-crop variant.
* `P0`         — src/unnamed/part_000 (alpha-weighted sampling, maxFrac 1.15).
* `P1`         — src/unnamed/part_001 (the "FIXED" variant with no
                 fully-transparent-input check).
* `RasterVar`  — src/server.js, third section (raster renderer that upscales
                 the result back to the original dimensions).
* `Conc`       — the admission-control counter of the DTF-safe variant.

Machine numbers are embedded as `ℕ`/`ℤ`/`ℚ` where the JavaScript arithmetic
is exact on the reachable values, and as `ℝ` for the dot-geometry math
(JS doubles idealized as reals, the standard shallow-embedding choice for
`Math.pow`/`Math.sqrt`).
-/

/-- One RGBA sample, each channel 0..255 as decoded by sharp (`ensureAlpha`). -/
structure RGBA where
  r : ℕ
  g : ℕ
  b : ℕ
  a : ℕ
deriving DecidableEq, Repr

/-- A decoded raster: width, height and a pixel lookup (row-major in the JS
buffers; here a function of x and y). -/
structure Raster where
  w : ℕ
  h : ℕ
  px : ℕ → ℕ → RGBA

/-- JS helper `clamp(n, min, max) = Math.max(min, Math.min(max, n))`,
present identically in every variant. -/
def clamp {α : Type} [LinearOrder α] (n lo hi : α) : α :=
  max lo (min hi n)

theorem clamp_le_hi {α : Type} [LinearOrder α] (n lo hi : α) (h : lo ≤ hi) :
    clamp n lo hi ≤ hi :=
  max_le h (min_le_left _ _)

theorem lo_le_clamp {α : Type} [LinearOrder α] (n lo hi : α) :
    lo ≤ clamp n lo hi :=
  le_max_left _ _

theorem clamp_mono {α : Type} [LinearOrder α] (lo hi : α) {x y : α} (h : x ≤ y) :
    clamp x lo hi ≤ clamp y lo hi :=
  max_le_max le_rfl (min_le_min le_rfl h)

theorem clamp_eq_self {α : Type} [LinearOrder α] {n lo hi : α}
    (h1 : lo ≤ n) (h2 : n ≤ hi) : clamp n lo hi = n := by
  rw [clamp, min_eq_right h2, max_eq_right h1]

theorem clamp_eq_hi {α : Type} [LinearOrder α] {n lo hi : α}
    (h1 : hi ≤ n) (h2 : lo ≤ hi) : clamp n lo hi = hi := by
  rw [clamp, min_eq_left h1, max_eq_right h2]

theorem clamp_eq_lo {α : Type} [LinearOrder α] {n lo hi : α}
    (h1 : n ≤ lo) (h2 : lo ≤ hi) : clamp n lo hi = lo := by
  rw [clamp, min_eq_right (le_trans h1 h2), max_eq_left h1]

namespace Dtf

/-- Per-cell accumulator of the DTF-safe variant's sampling loop
(src/server.js, dtfSafe variant: `rSum/gSum/bSum/aSum/count/realCount`). -/
structure Accum where
  rSum : ℕ
  gSum : ℕ
  bSum : ℕ
  aSum : ℕ
  count : ℕ
  realCount : ℕ
deriving DecidableEq, Repr

/-- One iteration of the inner pixel loop (dtfSafe variant).  `count++`
always runs; in DTF-safe mode a pixel with `a <= alphaThr` is skipped
(`continue`), otherwise (and always in non-DTF mode) the pixel's channels
are accumulated and `realCount++`. -/
def sampleStep (dtfSafe : Bool) (alphaThr : ℕ) (acc : Accum) (p : RGBA) : Accum :=
  if dtfSafe ∧ p.a ≤ alphaThr then
    { acc with count := acc.count + 1 }
  else
    { rSum := acc.rSum + p.r
      gSum := acc.gSum + p.g
      bSum := acc.bSum + p.b
      aSum := acc.aSum + p.a
      count := acc.count + 1
      realCount := acc.realCount + 1 }

/-- The sampling loop over a cell's pixels, in loop order. -/
def sampleFold (dtfSafe : Bool) (alphaThr : ℕ) (ps : List RGBA) : Accum :=
  ps.foldl (sampleStep dtfSafe alphaThr) ⟨0, 0, 0, 0, 0, 0⟩

/-- The pixels of the cell `[x0,x1) × [y0,y1)` of a raster, in the loop's
row-major order (`for y ... for x ...`). -/
def cellPixels (img : Raster) (x0 x1 y0 y1 : ℕ) : List RGBA :=
  (List.range (y1 - y0)).flatMap fun dy =>
    (List.range (x1 - x0)).map fun dx => img.px (x0 + dx) (y0 + dy)

/-- Per-cell sampling of the dtfSafe variant, as in the source loop. -/
def sampleCell (dtfSafe : Bool) (alphaThr : ℕ) (img : Raster)
    (x0 x1 y0 y1 : ℕ) : Accum :=
  sampleFold dtfSafe alphaThr (cellPixels img x0 x1 y0 y1)

/-- The ink pixels of a cell: alpha strictly above the threshold. -/
def inkPixels (alphaThr : ℕ) (ps : List RGBA) : List RGBA :=
  ps.filter fun p => alphaThr < p.a

theorem sampleFold_true_aux (alphaThr : ℕ) :
    ∀ (ps : List RGBA) (acc : Accum),
      ps.foldl (sampleStep true alphaThr) acc =
        ⟨acc.rSum + ((inkPixels alphaThr ps).map RGBA.r).sum,
         acc.gSum + ((inkPixels alphaThr ps).map RGBA.g).sum,
         acc.bSum + ((inkPixels alphaThr ps).map RGBA.b).sum,
         acc.aSum + ((inkPixels alphaThr ps).map RGBA.a).sum,
         acc.count + ps.length,
         acc.realCount + (inkPixels alphaThr ps).length⟩ := by
  intro ps
  induction ps with
  | nil =>
      intro acc
      simp [inkPixels]
  | cons p ps ih =>
      intro acc
      by_cases hp : p.a ≤ alphaThr
      · have hnot : ¬ alphaThr < p.a := not_lt.mpr hp
        simp only [List.foldl_cons, sampleStep, hp, and_true, if_pos True.intro,
          true_and, if_pos hp]
        rw [ih]
        simp [inkPixels, hnot]
        omega
      · have hlt : alphaThr < p.a := not_le.mp hp
        simp only [List.foldl_cons, sampleStep, true_and, if_neg hp]
        rw [ih]
        simp [inkPixels, hlt]
        refine ⟨by omega, by omega, by omega, by omega, by omega, by omega⟩

/-- In DTF-safe mode the sampler is exactly ink-pixel accumulation:
the channel sums range over precisely the pixels whose alpha strictly
exceeds the threshold, `realCount` is the number of such pixels, and
`count` is the cell's total pixel count. -/
theorem sampleFold_true_eq (alphaThr : ℕ) (ps : List RGBA) :
    sampleFold true alphaThr ps =
      ⟨((inkPixels alphaThr ps).map RGBA.r).sum,
       ((inkPixels alphaThr ps).map RGBA.g).sum,
       ((inkPixels alphaThr ps).map RGBA.b).sum,
       ((inkPixels alphaThr ps).map RGBA.a).sum,
       ps.length,
       (inkPixels alphaThr ps).length⟩ := by
  have h := sampleFold_true_aux alphaThr ps ⟨0, 0, 0, 0, 0, 0⟩
  simpa [sampleFold] using h

end Dtf

namespace Dtf

/-- Dot shape selector (`dotShape` request field, all variants). -/
inductive Shape where
  | circle
  | square
  | ellipse
deriving DecidableEq, Repr

/-- Request parameters of the dtfSafe variant (zod `ProcessRequest`). -/
structure Params where
  cellSize : ℤ
  dotShape : Shape
  dotGain : ℚ
  minDot : ℚ
  dtfSafe : Bool
  alphaThreshold : ℤ
  minCoverage : ℚ
deriving DecidableEq, Repr

/-- `MIN_CELL` of the dtfSafe variant (default 8). -/
def MIN_CELL : ℤ := 8

/-- `MAX_CELL` of the dtfSafe variant (default 30). -/
def MAX_CELL : ℤ := 30

/-- `luminance255` as in the source: perceptual weights on a 0..255 scale. -/
def luminance255 (r g b : ℚ) : ℚ :=
  0.2126 * r + 0.7152 * g + 0.0722 * b

/-- An emitted dot descriptor (one SVG shape pushed by the dtfSafe loop). -/
structure Dot where
  shape : Shape
  cx : ℚ
  cy : ℚ
  radius : ℚ
  fillR : ℤ
  fillG : ℤ
  fillB : ℤ
  opacity : ℚ
deriving DecidableEq, Repr

/-- The dtfSafe variant's per-cell dot computation (source order):
sample the cell, skip when `!count || realCount <= 0`, skip when DTF-safe
coverage is below `minCov`, average channels over `realCount`, derive
darkness and gain-adjusted radius, skip micro-dots, and emit the shape with
`fill-opacity` `"1"` in DTF-safe mode or the average alpha otherwise. -/
def cellDot (p : Params) (img : Raster) (x0 x1 y0 y1 : ℕ) : Option Dot :=
  let alphaThr : ℕ := (clamp p.alphaThreshold 0 254).toNat
  let minCov : ℚ := clamp p.minCoverage 0 1
  let minDotClamped : ℚ := clamp p.minDot 0 0.95
  let dotGainClamped : ℚ := clamp p.dotGain 0.4 3.0
  let cs : ℤ := clamp p.cellSize MIN_CELL MAX_CELL
  let half : ℚ := (cs : ℚ) / 2
  let acc := sampleCell p.dtfSafe alphaThr img x0 x1 y0 y1
  if acc.count = 0 ∨ acc.realCount = 0 then none
  else if p.dtfSafe ∧ (acc.realCount : ℚ) / (acc.count : ℚ) < minCov then none
  else
    let r : ℤ := round ((acc.rSum : ℚ) / (acc.realCount : ℚ))
    let g : ℤ := round ((acc.gSum : ℚ) / (acc.realCount : ℚ))
    let b : ℤ := round ((acc.bSum : ℚ) / (acc.realCount : ℚ))
    let aAvg : ℤ := round ((acc.aSum : ℚ) / (acc.realCount : ℚ))
    let darkness : ℚ := 1 - luminance255 r g b / 255
    let darknessAdj : ℚ := clamp (darkness * dotGainClamped) 0 1
    let radius : ℚ := half * (minDotClamped + (1 - minDotClamped) * darknessAdj)
    let minRadiusPx : ℚ := if p.dtfSafe then 0.20 else 0.35
    if radius < minRadiusPx then none
    else
      some
        { shape := p.dotShape
          cx := (x0 : ℚ) + ((x1 : ℚ) - (x0 : ℚ)) / 2
          cy := (y0 : ℚ) + ((y1 : ℚ) - (y0 : ℚ)) / 2
          radius := radius
          fillR := r
          fillG := g
          fillB := b
          opacity := if p.dtfSafe then 1 else (aAvg : ℚ) / 255 }

/-- The stage between SVG rasterization and PNG encoding in the dtfSafe
variant: `sharp(Buffer.from(svg)).png(...).toBuffer()` applies no transform
to the rasterized alpha channel — there is no post-compositing alpha pass,
so this stage is the identity on each pixel's alpha value. -/
def pngEncodeAlpha (a : ℕ) : ℕ := a

end Dtf

/-- A 1-by-1 raster holding a single background pixel: red 200, alpha 0. -/
def bgRaster : Raster :=
  ⟨1, 1, fun _ _ => ⟨200, 0, 0, 0⟩⟩

/-- C2 counterexample: with `dtfSafe=false` (the "classic behavior" branch)
the sampler accumulates a pixel whose alpha (0) does not exceed the
threshold (48) — the background pixel contributes 200 to the cell's red
sum, so the claim's "no background pixel ever contributes to a cell's
average color", stated for every cell of every raster, is false; the same
cell sampled with `dtfSafe=true` excludes it. -/
theorem dtf_background_pixel_contributes_cex :
    (bgRaster.px 0 0).a ≤ 48
      ∧ (Dtf.sampleCell false 48 bgRaster 0 1 0 1).rSum = 200
      ∧ (Dtf.sampleCell true 48 bgRaster 0 1 0 1).rSum = 0 := by
  decide

/-- C2 amended: in DTF-safe mode the Grid Sampler classifies a pixel as ink
exactly when its alpha strictly exceeds `alphaThreshold` (alpha equal to the
threshold is background), the per-cell R, G, B and alpha sums range over
precisely the ink pixels, `realCount` is the ink-pixel count and `count` the
cell's total pixel count — so no background pixel contributes to the
averages derived from these sums. -/
theorem dtf_sampler_ink_only (alphaThr : ℕ) (img : Raster) (x0 x1 y0 y1 : ℕ) :
    (Dtf.sampleCell true alphaThr img x0 x1 y0 y1).rSum
        = ((Dtf.inkPixels alphaThr (Dtf.cellPixels img x0 x1 y0 y1)).map RGBA.r).sum
      ∧ (Dtf.sampleCell true alphaThr img x0 x1 y0 y1).gSum
        = ((Dtf.inkPixels alphaThr (Dtf.cellPixels img x0 x1 y0 y1)).map RGBA.g).sum
      ∧ (Dtf.sampleCell true alphaThr img x0 x1 y0 y1).bSum
        = ((Dtf.inkPixels alphaThr (Dtf.cellPixels img x0 x1 y0 y1)).map RGBA.b).sum
      ∧ (Dtf.sampleCell true alphaThr img x0 x1 y0 y1).realCount
        = (Dtf.inkPixels alphaThr (Dtf.cellPixels img x0 x1 y0 y1)).length
      ∧ (Dtf.sampleCell true alphaThr img x0 x1 y0 y1).count
        = (Dtf.cellPixels img x0 x1 y0 y1).length := by
  have h := Dtf.sampleFold_true_eq alphaThr (Dtf.cellPixels img x0 x1 y0 y1)
  simp [Dtf.sampleCell, h]

/-- C1 counterexample: there is no alpha-hardening post-pass in the dtfSafe
variant — the stage between SVG rasterization and PNG encoding is the
identity on alpha, so a fractional (antialiased) alpha value such as 128
survives into the encoded PNG unchanged, contradicting "a hardening
post-pass forces alpha to 0 where it was 0 and to 255 where it was
positive". -/
theorem dtf_no_alpha_hardening_cex :
    Dtf.pngEncodeAlpha 128 = 128
      ∧ ¬ (Dtf.pngEncodeAlpha 128 = 0 ∨ Dtf.pngEncodeAlpha 128 = 255) := by
  decide

/-- C1 amended: in DTF-safe (binary alpha) mode every dot the compositor is
given carries `fill-opacity` exactly 1 (instead of the fractional
average-alpha opacity used otherwise); no post-compositing alpha pass
exists, so binaryness of the final raster's alpha is delegated entirely to
the rasterizer and antialiased fractional alpha at dot edges is not
removed. -/
theorem dtf_binary_mode_opacity_one (p : Dtf.Params) (hp : p.dtfSafe = true)
    (img : Raster) (x0 x1 y0 y1 : ℕ) (d : Dtf.Dot)
    (hd : Dtf.cellDot p img x0 x1 y0 y1 = some d) :
    d.opacity = 1 ∧ ∀ a : ℕ, Dtf.pngEncodeAlpha a = a := by
  refine ⟨?_, fun a => rfl⟩
  simp only [Dtf.cellDot, hp, if_true] at hd
  split at hd
  · exact Option.noConfusion hd
  · split at hd
    · exact Option.noConfusion hd
    · split at hd
      · exact Option.noConfusion hd
      · injection hd with h
        subst h
        rfl

/-- Concrete DTF-safe request parameters (the zod defaults). -/
def dtfDefaults : Dtf.Params :=
  { cellSize := 12
    dotShape := Dtf.Shape.circle
    dotGain := 1.35
    minDot := 0.12
    dtfSafe := true
    alphaThreshold := 48
    minCoverage := 0.2 }

/-- A 1-by-1 fully opaque black raster. -/
def blackRaster : Raster :=
  ⟨1, 1, fun _ _ => ⟨0, 0, 0, 255⟩⟩

/-- The dot the dtfSafe variant emits for the single cell of `blackRaster`
under `dtfDefaults`: full radius (half of the clamped cell size 12) and
opacity 1. -/
def blackDot : Dtf.Dot :=
  { shape := Dtf.Shape.circle
    cx := 1 / 2
    cy := 1 / 2
    radius := 6
    fillR := 0
    fillG := 0
    fillB := 0
    opacity := 1 }

theorem cellDot_blackRaster_eval :
    Dtf.cellDot dtfDefaults blackRaster 0 1 0 1 = some blackDot := by
  have hcell : Dtf.sampleCell true (Int.toNat 48) blackRaster 0 1 0 1
      = ⟨0, 0, 0, 255, 1, 1⟩ := rfl
  have h48 : clamp (48 : ℤ) 0 254 = 48 := clamp_eq_self (by norm_num) (by norm_num)
  have hcov : clamp (0.2 : ℚ) 0 1 = 0.2 := clamp_eq_self (by norm_num) (by norm_num)
  have hdot : clamp (0.12 : ℚ) 0 0.95 = 0.12 := clamp_eq_self (by norm_num) (by norm_num)
  have hgain : clamp (1.35 : ℚ) 0.4 3.0 = 1.35 := clamp_eq_self (by norm_num) (by norm_num)
  have hcs : clamp (12 : ℤ) Dtf.MIN_CELL Dtf.MAX_CELL = 12 :=
    clamp_eq_self (by norm_num [Dtf.MIN_CELL]) (by norm_num [Dtf.MAX_CELL])
  have hadj : clamp ((27 : ℚ) / 20) 0 1 = 1 := clamp_eq_hi (by norm_num) (by norm_num)
  simp only [Dtf.cellDot, dtfDefaults, h48, Int.toNat_ofNat, hcell, hcov, hdot, hgain, hcs]
  norm_num [Dtf.luminance255, round_eq, blackDot, hadj]

theorem dtf_binary_mode_opacity_one_witness :
    dtfDefaults.dtfSafe = true
      ∧ Dtf.cellDot dtfDefaults blackRaster 0 1 0 1 = some blackDot
      ∧ blackDot.opacity = 1 :=
  ⟨rfl, cellDot_blackRaster_eval,
    (dtf_binary_mode_opacity_one dtfDefaults rfl blackRaster 0 1 0 1 blackDot
      cellDot_blackRaster_eval).1⟩

namespace Conc

/-- Outcome of the body of the `POST /v1/halftone/process` handler's `try`
block in the dtfSafe variant: a successful render, a client-error `return`
(404/413/400 paths), or a thrown error (caught and mapped to 500). -/
inductive Outcome where
  | success
  | clientError
  | thrown
deriving DecidableEq, Repr

/-- The handler's observable response kinds. -/
inductive Response where
  | ok
  | badRequest
  | busy
  | clientErr
  | internalErr
deriving DecidableEq, Repr

/-- The dtfSafe variant's process handler around the `ACTIVE_JOBS` counter:
zod-parse failure returns BAD_REQUEST before the counter is touched; then
`if (ACTIVE_JOBS >= MAX_CONCURRENT_JOBS)` returns the 429 BUSY response;
otherwise `ACTIVE_JOBS++`, the body runs to one of its outcomes, and the
`finally` block performs `ACTIVE_JOBS--` on every exit path.  Returns the
response together with the counter value after the request. -/
def handleProcess (limit : ℤ) (valid : Bool) (o : Outcome) (jobs : ℤ) :
    Response × ℤ :=
  if valid = false then (Response.badRequest, jobs)
  else if limit ≤ jobs then (Response.busy, jobs)
  else
    let jobsIn := jobs + 1
    let resp :=
      match o with
      | Outcome.success => Response.ok
      | Outcome.clientError => Response.clientErr
      | Outcome.thrown => Response.internalErr
    (resp, jobsIn - 1)

/-- Atomic counter events as they occur on the single-threaded event loop:
an arrival (check-and-increment, one synchronous block) or a completion
(the `finally` decrement). -/
inductive JobEvent where
  | arrive
  | finish
deriving DecidableEq, Repr

/-- One atomic counter transition. -/
def step (limit : ℤ) (jobs : ℤ) : JobEvent → ℤ
  | JobEvent.arrive => if limit ≤ jobs then jobs else jobs + 1
  | JobEvent.finish => jobs - 1

/-- The counter after an arbitrary interleaving of arrivals and finishes. -/
def runEvents (limit : ℤ) (jobs : ℤ) (es : List JobEvent) : ℤ :=
  es.foldl (step limit) jobs

theorem runEvents_le (limit : ℤ) :
    ∀ (es : List JobEvent) (jobs : ℤ), jobs ≤ limit →
      runEvents limit jobs es ≤ limit := by
  intro es
  induction es with
  | nil => intro jobs h; simpa [runEvents] using h
  | cons e es ih =>
      intro jobs h
      cases e with
      | arrive =>
          by_cases hb : limit ≤ jobs
          · simpa [runEvents, step, hb] using ih jobs h
          · have : jobs + 1 ≤ limit := by omega
            simpa [runEvents, step, hb] using ih (jobs + 1) this
      | finish =>
          have : jobs - 1 ≤ limit := by omega
          simpa [runEvents, step] using ih (jobs - 1) this

end Conc

/-- C9: admission control on the process-wide `ACTIVE_JOBS` counter.
A validated request is rejected as BUSY exactly when the counter has
reached the concurrency limit; on every path (busy rejection, invalid
request, success, client error, thrown error) the counter after the request
equals its prior value — the increment is matched by exactly one decrement
in `finally` — and under any interleaving of atomic arrivals and finishes a
counter starting at or below the limit never exceeds the limit. -/
theorem active_jobs_admission (limit jobs : ℤ) (o : Conc.Outcome) (v : Bool) :
    ((Conc.handleProcess limit true o jobs).1 = Conc.Response.busy ↔ limit ≤ jobs)
      ∧ (Conc.handleProcess limit v o jobs).2 = jobs
      ∧ ∀ es : List Conc.JobEvent, jobs ≤ limit →
          Conc.runEvents limit jobs es ≤ limit := by
  refine ⟨?_, ?_, fun es h => Conc.runEvents_le limit es jobs h⟩
  · constructor
    · intro h
      by_contra hb
      simp only [Conc.handleProcess, Bool.true_eq_false, if_false, if_neg hb] at h
      cases o <;> simp at h
    · intro h
      simp [Conc.handleProcess, h]
  · cases v with
    | false => simp [Conc.handleProcess]
    | true =>
        by_cases hb : limit ≤ jobs
        · simp [Conc.handleProcess, hb]
        · cases o <;> simp [Conc.handleProcess, hb]

theorem active_jobs_admission_witness :
    ((Conc.handleProcess 1 true Conc.Outcome.success 1).1 = Conc.Response.busy
        ↔ (1 : ℤ) ≤ 1)
      ∧ (Conc.handleProcess 1 true Conc.Outcome.success 1).2 = 1
      ∧ ((0 : ℤ) ≤ 1
        ∧ Conc.runEvents 1 0
            [Conc.JobEvent.arrive, Conc.JobEvent.arrive, Conc.JobEvent.finish] ≤ 1) :=
  ⟨(active_jobs_admission 1 1 Conc.Outcome.success true).1,
   (active_jobs_admission 1 1 Conc.Outcome.success true).2.1,
   by decide,
   (active_jobs_admission 1 0 Conc.Outcome.success true).2.2 _ (by decide)⟩

namespace AlphaCrop

/-- `MIN_CELL` of the alpha-crop variant (default 6). -/
def MIN_CELL : ℤ := 6

/-- `MAX_CELL` of the alpha-crop variant (default 48). -/
def MAX_CELL : ℤ := 48

/-- `MAX_CELLS_ESTIMATE` of the alpha-crop variant (default 260000). -/
def MAX_CELLS_ESTIMATE : ℕ := 260000

/-- `MAX_IMAGE_PIXELS` of the alpha-crop variant (default 60000000). -/
def MAX_IMAGE_PIXELS : ℕ := 60000000

/-- `HARD_MAX_WIDTH` (default 3600 = 12 inches at 300 dpi). -/
def HARD_MAX_WIDTH : ℤ := 3600

/-- `ALPHA_BBOX_THRESHOLD` (default 8). -/
def ALPHA_BBOX_THRESHOLD : ℤ := 8

/-- `ALPHA_CROP_PADDING` (default 2). -/
def ALPHA_CROP_PADDING : ℤ := 2

/-- Running bounding box of `findAlphaBBox`:
`minX/minY/maxX/maxY`, initialized to `(w, h, -1, -1)`. -/
structure BBoxAcc where
  minX : ℤ
  minY : ℤ
  maxX : ℤ
  maxY : ℤ
deriving DecidableEq, Repr

/-- One pixel step of `findAlphaBBox`: when the alpha exceeds the clamped
threshold, the bounds are widened (`if (x < minX) minX = x` and friends). -/
def bboxStep (t : ℕ) (alpha : ℕ → ℕ → ℕ) (acc : BBoxAcc) (pt : ℕ × ℕ) : BBoxAcc :=
  if t < alpha pt.1 pt.2 then
    ⟨min acc.minX (pt.1 : ℤ), min acc.minY (pt.2 : ℤ),
     max acc.maxX (pt.1 : ℤ), max acc.maxY (pt.2 : ℤ)⟩
  else acc

/-- All pixel coordinates of a `w × h` raster in the scan order of the
source loops (`for y ... for x ...`). -/
def rasterPoints (w h : ℕ) : List (ℕ × ℕ) :=
  (List.range h).flatMap fun y => (List.range w).map fun x => (x, y)

/-- The bounding box returned by the source's `{left, top, right, bottom}`
object. -/
structure BBox where
  left : ℤ
  top : ℤ
  right : ℤ
  bottom : ℤ
deriving DecidableEq, Repr

/-- `findAlphaBBox(alphaBuf, w, h, thr)`: scan all pixels, track the
bounding box of alpha strictly above `clamp(Math.floor(thr), 0, 255)`, and
return `null` (here `none`) when `maxX < 0 || maxY < 0`, i.e. when no pixel
exceeded the threshold. -/
def findAlphaBBox (alpha : ℕ → ℕ → ℕ) (w h : ℕ) (thr : ℤ) : Option BBox :=
  let t := (clamp thr 0 255).toNat
  let r := (rasterPoints w h).foldl (bboxStep t alpha) ⟨(w : ℤ), (h : ℤ), -1, -1⟩
  if r.maxX < 0 ∨ r.maxY < 0 then none
  else some ⟨r.minX, r.minY, r.maxX, r.maxY⟩

theorem bboxFold_maxX_neg (t : ℕ) (alpha : ℕ → ℕ → ℕ) :
    ∀ (pts : List (ℕ × ℕ)) (acc : BBoxAcc),
      ((pts.foldl (bboxStep t alpha) acc).maxX < 0
        ↔ (acc.maxX < 0 ∧ ∀ p ∈ pts, alpha p.1 p.2 ≤ t)) := by
  intro pts
  induction pts with
  | nil => intro acc; simp
  | cons p ps ih =>
      intro acc
      by_cases hp : t < alpha p.1 p.2
      · simp only [List.foldl_cons, bboxStep, if_pos hp]
        rw [ih]
        dsimp only
        constructor
        · rintro ⟨hmax, -⟩
          exfalso
          have h1 : (0 : ℤ) ≤ (p.1 : ℤ) := Int.natCast_nonneg _
          have h2 := le_max_right acc.maxX (p.1 : ℤ)
          omega
        · rintro ⟨-, hall⟩
          exact absurd (hall p (List.mem_cons_self p ps)) (not_le.mpr hp)
      · simp only [List.foldl_cons, bboxStep, if_neg hp]
        rw [ih]
        constructor
        · rintro ⟨hmax, hall⟩
          refine ⟨hmax, fun q hq => ?_⟩
          rcases List.mem_cons.mp hq with rfl | hq
          · exact not_lt.mp hp
          · exact hall q hq
        · rintro ⟨hmax, hall⟩
          exact ⟨hmax, fun q hq => hall q (List.mem_cons_of_mem p hq)⟩

theorem bboxFold_maxY_neg (t : ℕ) (alpha : ℕ → ℕ → ℕ) :
    ∀ (pts : List (ℕ × ℕ)) (acc : BBoxAcc),
      ((pts.foldl (bboxStep t alpha) acc).maxY < 0
        ↔ (acc.maxY < 0 ∧ ∀ p ∈ pts, alpha p.1 p.2 ≤ t)) := by
  intro pts
  induction pts with
  | nil => intro acc; simp
  | cons p ps ih =>
      intro acc
      by_cases hp : t < alpha p.1 p.2
      · simp only [List.foldl_cons, bboxStep, if_pos hp]
        rw [ih]
        dsimp only
        constructor
        · rintro ⟨hmax, -⟩
          exfalso
          have h1 : (0 : ℤ) ≤ (p.2 : ℤ) := Int.natCast_nonneg _
          have h2 := le_max_right acc.maxY (p.2 : ℤ)
          omega
        · rintro ⟨-, hall⟩
          exact absurd (hall p (List.mem_cons_self p ps)) (not_le.mpr hp)
      · simp only [List.foldl_cons, bboxStep, if_neg hp]
        rw [ih]
        constructor
        · rintro ⟨hmax, hall⟩
          refine ⟨hmax, fun q hq => ?_⟩
          rcases List.mem_cons.mp hq with rfl | hq
          · exact not_lt.mp hp
          · exact hall q hq
        · rintro ⟨hmax, hall⟩
          exact ⟨hmax, fun q hq => hall q (List.mem_cons_of_mem p hq)⟩

theorem mem_rasterPoints {w h : ℕ} {p : ℕ × ℕ} :
    p ∈ rasterPoints w h ↔ p.1 < w ∧ p.2 < h := by
  cases p with
  | mk x y =>
      simp only [rasterPoints, List.mem_flatMap, List.mem_map, List.mem_range]
      constructor
      · rintro ⟨y', hy', x', hx', h⟩
        cases h
        exact ⟨hx', hy'⟩
      · rintro ⟨hx, hy⟩
        exact ⟨y, hy, x, hx, rfl⟩

/-- `findAlphaBBox` returns `null` exactly when every pixel's alpha is at
or below the clamped threshold. -/
theorem findAlphaBBox_eq_none (alpha : ℕ → ℕ → ℕ) (w h : ℕ) (thr : ℤ) :
    findAlphaBBox alpha w h thr = none
      ↔ ∀ x y, x < w → y < h → alpha x y ≤ (clamp thr 0 255).toNat := by
  simp only [findAlphaBBox]
  constructor
  · intro hnone x y hx hy
    by_cases hmx : ((rasterPoints w h).foldl (bboxStep (clamp thr 0 255).toNat alpha)
        ⟨(w : ℤ), (h : ℤ), -1, -1⟩).maxX < 0
    · have := (bboxFold_maxX_neg (clamp thr 0 255).toNat alpha
        (rasterPoints w h) ⟨(w : ℤ), (h : ℤ), -1, -1⟩).mp hmx
      exact this.2 (x, y) (mem_rasterPoints.mpr ⟨hx, hy⟩)
    · by_cases hmy : ((rasterPoints w h).foldl (bboxStep (clamp thr 0 255).toNat alpha)
          ⟨(w : ℤ), (h : ℤ), -1, -1⟩).maxY < 0
      · have := (bboxFold_maxY_neg (clamp thr 0 255).toNat alpha
          (rasterPoints w h) ⟨(w : ℤ), (h : ℤ), -1, -1⟩).mp hmy
        exact this.2 (x, y) (mem_rasterPoints.mpr ⟨hx, hy⟩)
      · exfalso
        rw [if_neg (by tauto)] at hnone
        exact Option.noConfusion hnone
  · intro hall
    have hmx : ((rasterPoints w h).foldl (bboxStep (clamp thr 0 255).toNat alpha)
        ⟨(w : ℤ), (h : ℤ), -1, -1⟩).maxX < 0 := by
      rw [bboxFold_maxX_neg]
      exact ⟨by norm_num, fun p hp => by
        rcases mem_rasterPoints.mp hp with ⟨h1, h2⟩
        exact hall p.1 p.2 h1 h2⟩
    rw [if_pos (Or.inl hmx)]

end AlphaCrop

namespace AlphaCrop

/-- Errors thrown by the alpha-crop `makeColorHalftonePng` (as `Error`
messages in the source; embedded as typed values). -/
inductive HtError where
  | fullyTransparent
  | tooHeavy (estimate : ℕ) (maxCells : ℕ)
  | tooLarge (pixels : ℕ)
deriving DecidableEq, Repr

/-- Error codes of the route's JSON error envelope. -/
inductive ErrCode where
  | badRequest
  | badImage
  | tooHeavy
  | tooLarge
  | notFound
  | internal
deriving DecidableEq, Repr

/-- The observable JSON error response of `POST /v1/halftone/process`:
HTTP status, `error.code`, the numbers interpolated into `error.message`,
and the `error.details.maxCells` field. -/
structure ErrResponse where
  status : ℕ
  code : ErrCode
  messageEstimate : Option ℕ
  detailsMaxCells : Option ℕ
deriving DecidableEq, Repr

/-- The route's catch-block mapping (alpha-crop variant): a message starting
"Settings too heavy: estimated cells=N" becomes a 400 `TOO_HEAVY` response
whose message carries the estimate N and whose details carry
`maxCells = MAX_CELLS_ESTIMATE`; a "fully transparent" message becomes a
400 `BAD_IMAGE` response; anything else becomes a 500 `INTERNAL`. -/
def routeErrorResponse : HtError → ErrResponse
  | HtError.tooHeavy n m => ⟨400, ErrCode.tooHeavy, some n, some m⟩
  | HtError.fullyTransparent => ⟨400, ErrCode.badImage, none, none⟩
  | HtError.tooLarge _ => ⟨500, ErrCode.internal, none, none⟩

/-- `Math.ceil(a / b)` on naturals (b positive in all uses). -/
def ceilDiv (a b : ℕ) : ℕ := (a + b - 1) / b

/-- `const cs = clamp(Math.floor(cellSize), MIN_CELL, MAX_CELL)`;
`Math.floor` is the identity on the integral `cellSize`. -/
def csOf (cellSize : ℤ) : ℤ := clamp cellSize MIN_CELL MAX_CELL

/-- `cols * rows` with `cols = Math.ceil(w / cs)`, `rows = Math.ceil(h / cs)`,
computed over the resized working dimensions. -/
def cellCountEstimate (w h : ℕ) (cellSize : ℤ) : ℕ :=
  ceilDiv w (csOf cellSize).toNat * ceilDiv h (csOf cellSize).toNat

/-- The cell-count guard: reject with the "Settings too heavy" error —
carrying the actual estimate and the ceiling — before the sampling loop
runs; otherwise continue with the estimate. -/
def cellGuard (w h : ℕ) (cellSize : ℤ) : Except HtError ℕ :=
  if MAX_CELLS_ESTIMATE < cellCountEstimate w h cellSize then
    Except.error (HtError.tooHeavy (cellCountEstimate w h cellSize) MAX_CELLS_ESTIMATE)
  else Except.ok (cellCountEstimate w h cellSize)

/-- Crop width after padding and clamping the alpha bounding box
(`left`/`right` with `pad = Math.max(0, Math.floor(ALPHA_CROP_PADDING))`). -/
def cropWidth (img : Raster) (bbox : BBox) : ℕ :=
  (clamp (bbox.right + max 0 ALPHA_CROP_PADDING) 0 ((img.w : ℤ) - 1)
    - clamp (bbox.left - max 0 ALPHA_CROP_PADDING) 0 ((img.w : ℤ) - 1) + 1).toNat

/-- Crop height, symmetric to `cropWidth`. -/
def cropHeight (img : Raster) (bbox : BBox) : ℕ :=
  (clamp (bbox.bottom + max 0 ALPHA_CROP_PADDING) 0 ((img.h : ℤ) - 1)
    - clamp (bbox.top - max 0 ALPHA_CROP_PADDING) 0 ((img.h : ℤ) - 1) + 1).toNat

/-- `const targetW = clamp(Math.min(cropW, maxWidth), 256, HARD_MAX_WIDTH)`. -/
def targetW (cropW : ℕ) (maxWidth : ℤ) : ℤ :=
  clamp (min (cropW : ℤ) maxWidth) 256 HARD_MAX_WIDTH

/-- Width of the resized working image: sharp's
`resize({width: targetW, withoutEnlargement: true})` never enlarges, so the
result width is the smaller of the crop width and the target. -/
def outWidth (cropW : ℕ) (maxWidth : ℤ) : ℕ :=
  min cropW (targetW cropW maxWidth).toNat

/-- Height of the resized working image.  The proportional resize itself is
performed by the external sharp adapter; it is modelled as rounding
`h * w2 / w` when the image shrinks and leaving `h` unchanged otherwise. -/
def resizeHeight (w h w2 : ℕ) : ℕ :=
  if w2 < w then max 1 (round ((h : ℚ) * (w2 : ℚ) / (w : ℚ))).toNat else h

/-- The encoded output width of the alpha-crop variant (`none` when the
input is fully transparent): crop to the alpha bounding box first, then
resize down to at most `maxWidth`. -/
def outputWidth (img : Raster) (maxWidth : ℤ) : Option ℕ :=
  (findAlphaBBox (fun x y => (img.px x y).a) img.w img.h ALPHA_BBOX_THRESHOLD).map
    fun bbox => outWidth (cropWidth img bbox) maxWidth

/-- The guard stages of the alpha-crop `makeColorHalftonePng`, in source
order: pixel-count ceiling, fully-transparent check (`findAlphaBBox`
returning null throws), crop, resize, then the cell-count guard — all
before any per-cell sampling work.  On success it returns the cell count. -/
def renderStatus (img : Raster) (cellSize maxWidth : ℤ) : Except HtError ℕ :=
  if MAX_IMAGE_PIXELS < img.w * img.h then
    Except.error (HtError.tooLarge (img.w * img.h))
  else
    match findAlphaBBox (fun x y => (img.px x y).a) img.w img.h ALPHA_BBOX_THRESHOLD with
    | none => Except.error HtError.fullyTransparent
    | some bbox =>
        let cw := cropWidth img bbox
        let ow := outWidth cw maxWidth
        cellGuard ow (resizeHeight cw (cropHeight img bbox) ow) cellSize

/-- Result of the route for the `cellSize` field alone. -/
inductive RouteOutcome where
  | badRequest
  | processed (cs : ℤ)
deriving DecidableEq, Repr

/-- The route's handling of `cellSize` (alpha-crop variant): the zod schema
`z.number().int().min(MIN_CELL).max(MAX_CELL)` rejects an out-of-range value
with a 400 BAD_REQUEST before the core runs; an accepted value is then
clamped by the core (`csOf`) before any use. -/
def processRouteCellSize (cellSize : ℤ) : RouteOutcome :=
  if MIN_CELL ≤ cellSize ∧ cellSize ≤ MAX_CELL then
    RouteOutcome.processed (csOf cellSize)
  else RouteOutcome.badRequest

end AlphaCrop

/-- C4: whenever the estimated cell count `ceil(W/cs) * ceil(H/cs)` over the
resized working dimensions exceeds `MAX_CELLS_ESTIMATE`, the pipeline's
cell guard — which runs before any per-cell sampling — returns the
"Settings too heavy" error, and the route maps it to a 400 `TOO_HEAVY`
client response whose message carries the actual estimate and whose
details carry the ceiling; when the estimate is within the ceiling the
guard passes the estimate through. -/
theorem settings_too_heavy_guard (w h : ℕ) (cellSize : ℤ) :
    (AlphaCrop.MAX_CELLS_ESTIMATE < AlphaCrop.cellCountEstimate w h cellSize →
        AlphaCrop.cellGuard w h cellSize
            = Except.error (AlphaCrop.HtError.tooHeavy
                (AlphaCrop.cellCountEstimate w h cellSize) AlphaCrop.MAX_CELLS_ESTIMATE)
          ∧ AlphaCrop.routeErrorResponse
                (AlphaCrop.HtError.tooHeavy (AlphaCrop.cellCountEstimate w h cellSize)
                  AlphaCrop.MAX_CELLS_ESTIMATE)
              = ⟨400, AlphaCrop.ErrCode.tooHeavy,
                 some (AlphaCrop.cellCountEstimate w h cellSize),
                 some AlphaCrop.MAX_CELLS_ESTIMATE⟩)
      ∧ (AlphaCrop.cellCountEstimate w h cellSize ≤ AlphaCrop.MAX_CELLS_ESTIMATE →
          AlphaCrop.cellGuard w h cellSize
            = Except.ok (AlphaCrop.cellCountEstimate w h cellSize)) := by
  constructor
  · intro hgt
    exact ⟨by simp [AlphaCrop.cellGuard, hgt], rfl⟩
  · intro hle
    simp [AlphaCrop.cellGuard, not_lt.mpr hle]

theorem settings_too_heavy_guard_witness :
    AlphaCrop.MAX_CELLS_ESTIMATE < AlphaCrop.cellCountEstimate 3600 3600 6
      ∧ AlphaCrop.cellGuard 3600 3600 6
          = Except.error (AlphaCrop.HtError.tooHeavy 360000 260000) := by
  have h1 : AlphaCrop.cellCountEstimate 3600 3600 6 = 360000 := by decide
  have h2 := ((settings_too_heavy_guard 3600 3600 6).1 (by decide)).1
  rw [h1] at h2
  exact ⟨by decide, h2⟩

/-- C8 counterexample: a request with `cellSize = 3`, below the configured
minimum 6, is rejected by the zod schema with BAD_REQUEST — it is not
silently clamped up to the minimum and processed. -/
theorem cellsize_below_min_rejected_cex :
    AlphaCrop.processRouteCellSize 3 = AlphaCrop.RouteOutcome.badRequest
      ∧ AlphaCrop.processRouteCellSize 3 ≠ AlphaCrop.RouteOutcome.processed 6 := by
  decide

/-- C8 amended: the route's schema rejects a `cellSize` outside
`[MIN_CELL, MAX_CELL]` with a BAD_REQUEST validation error rather than
clamping it; an in-range value is processed unchanged; and the core itself
always clamps `cellSize` into `[MIN_CELL, MAX_CELL]` before any use, so any
value reaching the cell computations — including from unvalidated callers —
is in range. -/
theorem cellsize_validation_and_clamp (c : ℤ) :
    (c < AlphaCrop.MIN_CELL ∨ AlphaCrop.MAX_CELL < c →
        AlphaCrop.processRouteCellSize c = AlphaCrop.RouteOutcome.badRequest)
      ∧ (AlphaCrop.MIN_CELL ≤ c → c ≤ AlphaCrop.MAX_CELL →
        AlphaCrop.processRouteCellSize c = AlphaCrop.RouteOutcome.processed c)
      ∧ AlphaCrop.MIN_CELL ≤ AlphaCrop.csOf c
      ∧ AlphaCrop.csOf c ≤ AlphaCrop.MAX_CELL := by
  refine ⟨?_, ?_, lo_le_clamp _ _ _, clamp_le_hi _ _ _ (by norm_num [AlphaCrop.MIN_CELL, AlphaCrop.MAX_CELL])⟩
  · intro hout
    have : ¬ (AlphaCrop.MIN_CELL ≤ c ∧ c ≤ AlphaCrop.MAX_CELL) := by omega
    simp [AlphaCrop.processRouteCellSize, this]
  · intro h1 h2
    have hcs : AlphaCrop.csOf c = c := clamp_eq_self h1 h2
    simp [AlphaCrop.processRouteCellSize, h1, h2, hcs]

theorem cellsize_validation_and_clamp_witness :
    ((3 : ℤ) < AlphaCrop.MIN_CELL ∨ AlphaCrop.MAX_CELL < 3)
      ∧ AlphaCrop.processRouteCellSize 3 = AlphaCrop.RouteOutcome.badRequest
      ∧ AlphaCrop.MIN_CELL ≤ (12 : ℤ) ∧ (12 : ℤ) ≤ AlphaCrop.MAX_CELL
      ∧ AlphaCrop.processRouteCellSize 12 = AlphaCrop.RouteOutcome.processed 12 :=
  ⟨by decide, (cellsize_validation_and_clamp 3).1 (by decide),
   by decide, by decide,
   (cellsize_validation_and_clamp 12).2.1 (by decide) (by decide)⟩

/-- A 1-by-1 fully transparent raster. -/
def transparentRaster : Raster :=
  ⟨1, 1, fun _ _ => ⟨0, 0, 0, 0⟩⟩

/-- C3 amended: in the alpha-crop variant, any input (within the pixel
ceiling) in which no pixel's alpha exceeds the threshold 8 makes
`findAlphaBBox` return null, and the pipeline rejects it with the distinct
"fully transparent" error (mapped by the route to a client error) instead
of returning a blank success. -/
theorem fully_transparent_rejected (img : Raster) (cellSize maxWidth : ℤ)
    (hpx : img.w * img.h ≤ AlphaCrop.MAX_IMAGE_PIXELS)
    (hall : ∀ x y, x < img.w → y < img.h → (img.px x y).a ≤ 8) :
    AlphaCrop.renderStatus img cellSize maxWidth
      = Except.error AlphaCrop.HtError.fullyTransparent := by
  have hbox : AlphaCrop.findAlphaBBox (fun x y => (img.px x y).a) img.w img.h
      AlphaCrop.ALPHA_BBOX_THRESHOLD = none := by
    rw [AlphaCrop.findAlphaBBox_eq_none]
    intro x y hx hy
    have h8 : (clamp AlphaCrop.ALPHA_BBOX_THRESHOLD 0 255).toNat = 8 := by decide
    rw [h8]
    exact hall x y hx hy
  simp [AlphaCrop.renderStatus, not_lt.mpr hpx, hbox]

theorem fully_transparent_rejected_witness :
    transparentRaster.w * transparentRaster.h ≤ AlphaCrop.MAX_IMAGE_PIXELS
      ∧ AlphaCrop.renderStatus transparentRaster 12 2000
          = Except.error AlphaCrop.HtError.fullyTransparent :=
  ⟨by decide,
   fully_transparent_rejected transparentRaster 12 2000 (by decide)
     (fun _ _ _ _ => by norm_num [transparentRaster])⟩

/-- A 10-by-1 raster whose opaque content occupies only columns 5..7. -/
def stripeRaster : Raster :=
  ⟨10, 1, fun x _ => if 5 ≤ x ∧ x ≤ 7 then ⟨0, 0, 0, 255⟩ else ⟨0, 0, 0, 0⟩⟩

/-- C5 counterexample: the alpha-crop variant crops to the content bounding
box before resizing, so for a 10-wide input whose opaque content spans
columns 5..7 (crop width 7 after padding) and `maxWidth = 2000`, the output
width is 7, not `min(inputWidth, maxWidth) = 10`. -/
theorem output_width_not_min_cex :
    AlphaCrop.outputWidth stripeRaster 2000 = some 7
      ∧ min stripeRaster.w 2000 = 10
      ∧ (7 : ℕ) ≠ 10 := by
  decide

namespace P0

/-- `MAX_WIDTH_PX` of part_000 (default 3600). -/
def MAX_WIDTH_PX : ℤ := 3600

/-- `clamp(Math.floor(maxWidth || MAX_WIDTH_PX), 256, MAX_WIDTH_PX)`:
the JS `||` substitutes the default when `maxWidth` is falsy (0). -/
def cappedMaxWidth (maxWidth : ℤ) : ℤ :=
  clamp (if maxWidth = 0 then MAX_WIDTH_PX else maxWidth) 256 MAX_WIDTH_PX

/-- `const targetW = Math.min(meta.width, cappedMaxWidth)`. -/
def targetW (inputW : ℕ) (maxWidth : ℤ) : ℕ :=
  min inputW (cappedMaxWidth maxWidth).toNat

/-- Output width of part_000: resize to `targetW` with
`withoutEnlargement: true`, which never enlarges past the input width. -/
def outputWidth (inputW : ℕ) (maxWidth : ℤ) : ℕ :=
  min inputW (targetW inputW maxWidth)

end P0

namespace RasterVar

/-- `const procW = Math.min(origW, processingMaxWidth)` (raster variant):
the working width never exceeds the decoded width. -/
def procW (origW pmw : ℕ) : ℕ := min origW pmw

/-- `const procH = Math.max(1, Math.round(origH * (procW / origW)))`. -/
def procH (origW origH pmw : ℕ) : ℕ :=
  max 1 (round ((origH : ℚ) * ((procW origW pmw : ℚ) / (origW : ℚ)))).toNat

/-- Final encoded dimensions of the raster variant: when the processed size
differs from the original, the PNG is upscaled back (nearest-neighbor) to
the original pixel dimensions; otherwise it is already at them. -/
def outputDims (origW origH w h : ℕ) : ℕ × ℕ :=
  if w ≠ origW ∨ h ≠ origH then (origW, origH) else (w, h)

end RasterVar

/-- C5 amended: in the non-cropping variants the encoded output width is
`min(inputWidth, maxWidth)` (for a validated `maxWidth` in `[256, 3600]`),
never above the input width; the raster variant's result is always
re-expanded to the original input dimensions and its working width never
exceeds the decoded width.  (The alpha-crop variant instead crops to the
alpha bounding box first, so its output width is
`min(croppedWidth, maxWidth)`-shaped, not `min(inputWidth, maxWidth)`.) -/
theorem output_dims_spec (inputW : ℕ) (mW : ℤ) (h256 : 256 ≤ mW) (h3600 : mW ≤ 3600)
    (origW origH w h pmw : ℕ) :
    P0.outputWidth inputW mW = min inputW mW.toNat
      ∧ P0.outputWidth inputW mW ≤ inputW
      ∧ RasterVar.outputDims origW origH w h = (origW, origH)
      ∧ RasterVar.procW origW pmw ≤ origW := by
  have hcap : P0.cappedMaxWidth mW = mW := by
    rw [P0.cappedMaxWidth, if_neg (by omega)]
    exact clamp_eq_self h256 (by simpa [P0.MAX_WIDTH_PX] using h3600)
  refine ⟨?_, min_le_left _ _, ?_, min_le_left _ _⟩
  · rw [P0.outputWidth, P0.targetW, hcap, ← min_assoc, min_self]
  · rw [RasterVar.outputDims]
    split
    · rfl
    · rename_i hc
      push_neg at hc
      rw [hc.1, hc.2]

theorem output_dims_spec_witness :
    (256 : ℤ) ≤ 2000 ∧ (2000 : ℤ) ≤ 3600
      ∧ P0.outputWidth 1000 2000 = min 1000 (2000 : ℤ).toNat
      ∧ P0.outputWidth 1000 2000 ≤ 1000
      ∧ RasterVar.outputDims 5 4 3 2 = (5, 4)
      ∧ RasterVar.procW 5 3 ≤ 5 :=
  ⟨by decide, by decide,
   (output_dims_spec 1000 2000 (by decide) (by decide) 5 4 3 2 3).1,
   (output_dims_spec 1000 2000 (by decide) (by decide) 5 4 3 2 3).2.1,
   (output_dims_spec 1000 2000 (by decide) (by decide) 5 4 3 2 3).2.2.1,
   (output_dims_spec 1000 2000 (by decide) (by decide) 5 4 3 2 3).2.2.2⟩

namespace P1

/-- `ALPHA_THRESHOLD` of part_001 (10). -/
def ALPHA_THRESHOLD : ℕ := 10

/-- Per-cell accumulator of part_001's loop: plain (unweighted) sums of
every pixel's channels and the pixel count. -/
structure PAcc where
  r : ℕ
  g : ℕ
  b : ℕ
  a : ℕ
  count : ℕ
deriving DecidableEq, Repr

/-- One iteration of part_001's inner loop: every pixel is accumulated. -/
def accumStep (acc : PAcc) (p : RGBA) : PAcc :=
  ⟨acc.r + p.r, acc.g + p.g, acc.b + p.b, acc.a + p.a, acc.count + 1⟩

/-- `luminance` of part_001 (same perceptual weights). -/
def luminance (r g b : ℚ) : ℚ :=
  0.2126 * r + 0.7152 * g + 0.0722 * b

/-- An SVG shape emitted by part_001. -/
structure PShape where
  shape : Dtf.Shape
  cx : ℚ
  cy : ℚ
  radius : ℚ
  fillR : ℤ
  fillG : ℤ
  fillB : ℤ
  opacity : ℚ
deriving DecidableEq, Repr

/-- Part_001's per-cell computation: average r,g,b,a over every pixel of
the cell, skip the cell when the average alpha is below `ALPHA_THRESHOLD`,
otherwise emit a shape with radius `clamp(half * darkness, 0.5, half)` and
opacity `a / 255` (fill channels truncated with `|0`). -/
def cellShape (dotShape : Dtf.Shape) (img : Raster) (cs x y : ℕ) : Option PShape :=
  let acc := (Dtf.cellPixels img x (min (x + cs) img.w) y
    (min (y + cs) img.h)).foldl accumStep ⟨0, 0, 0, 0, 0⟩
  if acc.count = 0 then none
  else
    let r : ℚ := (acc.r : ℚ) / (acc.count : ℚ)
    let g : ℚ := (acc.g : ℚ) / (acc.count : ℚ)
    let b : ℚ := (acc.b : ℚ) / (acc.count : ℚ)
    let a : ℚ := (acc.a : ℚ) / (acc.count : ℚ)
    if a < (ALPHA_THRESHOLD : ℚ) then none
    else
      let darkness : ℚ := 1 - luminance r g b / 255
      let half : ℚ := (cs : ℚ) / 2
      some
        { shape := dotShape
          cx := (x : ℚ) + (cs : ℚ) / 2
          cy := (y : ℚ) + (cs : ℚ) / 2
          radius := clamp (half * darkness) 0.5 half
          fillR := ⌊r⌋
          fillG := ⌊g⌋
          fillB := ⌊b⌋
          opacity := a / 255 }

/-- The cell origins of part_001's loops `for (let v = 0; v < n; v += cs)`. -/
def cellStarts (n cs : ℕ) : List ℕ :=
  (List.range (AlphaCrop.ceilDiv n cs)).map (· * cs)

/-- All shapes of part_001's SVG, in loop order. -/
def renderShapes (dotShape : Dtf.Shape) (img : Raster) (cellSize : ℤ) : List PShape :=
  let cs := (clamp cellSize 6 40).toNat
  (cellStarts img.h cs).flatMap fun y =>
    (cellStarts img.w cs).filterMap fun x => cellShape dotShape img cs x y

/-- Part_001's `makeColorHalftonePng` on a decoded raster: it performs no
fully-transparent-input check — for every decoded raster it builds the SVG
(possibly containing zero shapes) and returns the rasterized PNG
successfully. -/
def render (dotShape : Dtf.Shape) (img : Raster) (cellSize : ℤ) :
    Except AlphaCrop.HtError (List PShape) :=
  Except.ok (renderShapes dotShape img cellSize)

end P1

/-- C3 counterexample: part_001's `makeColorHalftonePng` has no
fully-transparent-input check.  On a 1-by-1 raster whose only pixel has
alpha 0 (at or below the threshold 10) every cell is skipped, and `render`
returns a successful result whose shape list is empty — a blank image
delivered as success, contradicting "render returns the distinct
FullyTransparentInput error ... it never returns a successful result whose
output is a blank image". -/
theorem transparent_blank_success_cex :
    (transparentRaster.px 0 0).a ≤ P1.ALPHA_THRESHOLD
      ∧ P1.render Dtf.Shape.circle transparentRaster 12 = Except.ok []
      ∧ P1.renderShapes Dtf.Shape.circle transparentRaster 12 = [] := by
  have hshape : P1.cellShape Dtf.Shape.circle transparentRaster 12 0 0 = none := by
    have hpx : Dtf.cellPixels transparentRaster 0 (min (0 + 12) transparentRaster.w) 0
        (min (0 + 12) transparentRaster.h) = [⟨0, 0, 0, 0⟩] := by decide
    simp only [P1.cellShape, hpx]
    norm_num [P1.accumStep, P1.ALPHA_THRESHOLD]
  have hsh : P1.renderShapes Dtf.Shape.circle transparentRaster 12 = [] := by
    have hcs : (clamp (12 : ℤ) 6 40).toNat = 12 := by decide
    have hstarts : P1.cellStarts 1 12 = [0] := by decide
    simp only [P1.renderShapes, hcs]
    simp only [transparentRaster] at hshape ⊢
    simp [hstarts, hshape]
  exact ⟨by decide, by rw [P1.render, hsh], hsh⟩

namespace AlphaCropR

/-- `luminance255` on reals. -/
noncomputable def luminance255 (r g b : ℝ) : ℝ :=
  0.2126 * r + 0.7152 * g + 0.0722 * b

/-- `const sNorm = clamp((Number(strength) || 100) / 100, 0, 2.5)`.
The JS `||` substitutes the baseline 100 when `strength` is falsy, i.e.
when it is 0. -/
noncomputable def sNorm (strength : ℝ) : ℝ :=
  clamp ((if strength = 0 then 100 else strength) / 100) 0 2.5

/-- `const curveExp = 1 / Math.max(0.25, sNorm)`. -/
noncomputable def curveExp (strength : ℝ) : ℝ :=
  1 / max 0.25 (sNorm strength)

/-- `const radiusGain = 0.95 + 0.85 * sNorm`. -/
noncomputable def radiusGain (strength : ℝ) : ℝ :=
  0.95 + 0.85 * sNorm strength

/-- `const alphaGain = clamp(0.95 + 0.40 * sNorm, 0, 1.6)`. -/
noncomputable def alphaGain (strength : ℝ) : ℝ :=
  clamp (0.95 + 0.40 * sNorm strength) 0 1.6

/-- `const darknessCurved = clamp(Math.pow(darkness, curveExp), 0, 1)`. -/
noncomputable def darknessCurved (darkness strength : ℝ) : ℝ :=
  clamp (darkness ^ curveExp strength) 0 1

/-- `const combined = clamp(darknessCurved * (0.60 + 0.40 * coverage), 0, 1)`. -/
noncomputable def combined (darkness coverage strength : ℝ) : ℝ :=
  clamp (darknessCurved darkness strength * (0.60 + 0.40 * coverage)) 0 1

/-- `const radius = half * clamp((0.05 + 0.95 * combined) * radiusGain, 0, 1)`. -/
noncomputable def radius (half darkness coverage strength : ℝ) : ℝ :=
  half * clamp ((0.05 + 0.95 * combined darkness coverage strength) * radiusGain strength) 0 1

/-- A cell summary as consumed by the dot geometry of the alpha-crop
variant: rounded average color channels, alpha coverage, and the
alpha-weighted sum used by the `aSum <= 1e-6` guard.  These quantities are
produced by the sampling loop and do not depend on `strength`. -/
structure Cell where
  r : ℤ
  g : ℤ
  b : ℤ
  cov : ℝ
  aSum : ℝ

/-- `darkness = 1 - lum / 255` of a cell's rounded average color. -/
noncomputable def cellDarkness (c : Cell) : ℝ :=
  1 - luminance255 (c.r : ℝ) (c.g : ℝ) (c.b : ℝ) / 255

/-- The radius a cell contributes: 0 when the cell is skipped (coverage
below `MIN_COVERAGE_TO_DRAW = 0.03`, the `aSum <= 1e-6` guard, or a radius
below `minDotRadiusPx = 0.28`), and the computed radius otherwise. -/
noncomputable def emittedRadius (half : ℝ) (c : Cell) (strength : ℝ) : ℝ :=
  if c.cov < 0.03 then 0
  else if c.aSum ≤ 1e-6 then 0
  else if radius half (cellDarkness c) c.cov strength < 0.28 then 0
  else radius half (cellDarkness c) c.cov strength

/-- Average dot radius across the cells of an image (cells that emit no
dot counting as radius zero). -/
noncomputable def avgRadius (half : ℝ) (cells : List Cell) (strength : ℝ) : ℝ :=
  ((cells.map fun c => emittedRadius half c strength).sum) / (cells.length : ℝ)

theorem sNorm_nonneg (s : ℝ) : 0 ≤ sNorm s :=
  lo_le_clamp _ _ _

theorem sNorm_mono {s1 s2 : ℝ} (h1 : 1 ≤ s1) (h : s1 ≤ s2) :
    sNorm s1 ≤ sNorm s2 := by
  rw [sNorm, sNorm, if_neg (by linarith), if_neg (by linarith)]
  exact clamp_mono _ _ (by linarith)

theorem curveExp_pos (s : ℝ) : 0 < curveExp s := by
  rw [curveExp]
  exact one_div_pos.mpr (lt_of_lt_of_le (by norm_num) (le_max_left _ _))

theorem curveExp_anti {s1 s2 : ℝ} (h1 : 1 ≤ s1) (h : s1 ≤ s2) :
    curveExp s2 ≤ curveExp s1 := by
  rw [curveExp, curveExp]
  exact one_div_le_one_div_of_le (lt_of_lt_of_le (by norm_num) (le_max_left _ _))
    (max_le_max le_rfl (sNorm_mono h1 h))

theorem rpow_anti_exponent {d e1 e2 : ℝ} (hd0 : 0 ≤ d) (hd1 : d ≤ 1)
    (he2 : 0 < e2) (h : e2 ≤ e1) : d ^ e1 ≤ d ^ e2 := by
  rcases eq_or_lt_of_le hd0 with h0 | h0
  · rw [← h0, Real.zero_rpow (ne_of_gt (lt_of_lt_of_le he2 h)),
      Real.zero_rpow (ne_of_gt he2)]
  · exact Real.rpow_le_rpow_of_exponent_ge h0 hd1 h

theorem darknessCurved_mono {d s1 s2 : ℝ} (hd0 : 0 ≤ d) (hd1 : d ≤ 1)
    (h1 : 1 ≤ s1) (h : s1 ≤ s2) :
    darknessCurved d s1 ≤ darknessCurved d s2 :=
  clamp_mono _ _ (rpow_anti_exponent hd0 hd1 (curveExp_pos s2) (curveExp_anti h1 h))

theorem combined_mono {d cov s1 s2 : ℝ} (hd0 : 0 ≤ d) (hd1 : d ≤ 1)
    (hcov : 0 ≤ cov) (h1 : 1 ≤ s1) (h : s1 ≤ s2) :
    combined d cov s1 ≤ combined d cov s2 :=
  clamp_mono _ _ (mul_le_mul_of_nonneg_right
    (darknessCurved_mono hd0 hd1 h1 h) (by linarith))

theorem radiusGain_mono {s1 s2 : ℝ} (h1 : 1 ≤ s1) (h : s1 ≤ s2) :
    radiusGain s1 ≤ radiusGain s2 := by
  rw [radiusGain, radiusGain]
  have := sNorm_mono h1 h
  linarith

theorem radiusGain_nonneg (s : ℝ) : 0 ≤ radiusGain s := by
  rw [radiusGain]
  have := sNorm_nonneg s
  linarith

theorem radius_mono {half d cov s1 s2 : ℝ} (hhalf : 0 ≤ half)
    (hd0 : 0 ≤ d) (hd1 : d ≤ 1) (hcov : 0 ≤ cov) (h1 : 1 ≤ s1) (h : s1 ≤ s2) :
    radius half d cov s1 ≤ radius half d cov s2 := by
  rw [radius, radius]
  refine mul_le_mul_of_nonneg_left (clamp_mono _ _ ?_) hhalf
  have hcm := combined_mono hd0 hd1 hcov h1 h
  have hc2 : (0 : ℝ) ≤ combined d cov s2 := lo_le_clamp _ _ _
  exact mul_le_mul (by linarith) (radiusGain_mono h1 h) (radiusGain_nonneg s1)
    (by linarith)

theorem radius_nonneg {half : ℝ} (hhalf : 0 ≤ half) (d cov s : ℝ) :
    0 ≤ radius half d cov s :=
  mul_nonneg hhalf (lo_le_clamp _ _ _)

theorem cellDarkness_mem {c : Cell} (hr0 : 0 ≤ c.r) (hr : c.r ≤ 255)
    (hg0 : 0 ≤ c.g) (hg : c.g ≤ 255) (hb0 : 0 ≤ c.b) (hb : c.b ≤ 255) :
    0 ≤ cellDarkness c ∧ cellDarkness c ≤ 1 := by
  rw [cellDarkness, luminance255]
  have h1 : ((c.r : ℝ)) ≤ 255 := by exact_mod_cast hr
  have h2 : ((c.g : ℝ)) ≤ 255 := by exact_mod_cast hg
  have h3 : ((c.b : ℝ)) ≤ 255 := by exact_mod_cast hb
  have h4 : (0 : ℝ) ≤ (c.r : ℝ) := by exact_mod_cast hr0
  have h5 : (0 : ℝ) ≤ (c.g : ℝ) := by exact_mod_cast hg0
  have h6 : (0 : ℝ) ≤ (c.b : ℝ) := by exact_mod_cast hb0
  constructor <;> [linarith; linarith]

/-- The per-cell bounds established by the sampling loop: channels rounded
from averages of 0..255 data, coverage clamped to [0, 1]. -/
def ValidCell (c : Cell) : Prop :=
  0 ≤ c.r ∧ c.r ≤ 255 ∧ 0 ≤ c.g ∧ c.g ≤ 255 ∧ 0 ≤ c.b ∧ c.b ≤ 255
    ∧ 0 ≤ c.cov ∧ c.cov ≤ 1

theorem emittedRadius_mono {half : ℝ} (hhalf : 0 ≤ half) {c : Cell}
    (hc : ValidCell c) {s1 s2 : ℝ} (h1 : 1 ≤ s1) (h : s1 ≤ s2) :
    emittedRadius half c s1 ≤ emittedRadius half c s2 := by
  obtain ⟨hr0, hr, hg0, hg, hb0, hb, hcov0, hcov1⟩ := hc
  obtain ⟨hd0, hd1⟩ := cellDarkness_mem hr0 hr hg0 hg hb0 hb
  rw [emittedRadius, emittedRadius]
  by_cases hcov : c.cov < 0.03
  · rw [if_pos hcov, if_pos hcov]
  · rw [if_neg hcov, if_neg hcov]
    by_cases ha : c.aSum ≤ 1e-6
    · rw [if_pos ha, if_pos ha]
    · rw [if_neg ha, if_neg ha]
      have hmono := radius_mono hhalf hd0 hd1 hcov0 h1 h
      have hnn2 := radius_nonneg hhalf (cellDarkness c) c.cov s2
      by_cases hr1 : radius half (cellDarkness c) c.cov s1 < 0.28
      · rw [if_pos hr1]
        split
        · exact le_refl 0
        · exact hnn2
      · rw [if_neg hr1, if_neg (by push_neg at hr1 ⊢; linarith)]
        exact hmono

end AlphaCropR

/-- C6 amended: for the alpha-crop variant's darkness response, increasing
the strength parameter within the range where the JS falsy-default does not
fire (strength at least 1) never decreases the average dot radius across a
fixed image's cells — per cell, the curved darkness, coverage mix, and
radius gain are each monotone in strength, and skipped cells contribute
zero at every strength. -/
theorem strength_monotone_avg_radius (half : ℝ) (hhalf : 0 ≤ half)
    (cells : List AlphaCropR.Cell) (hc : ∀ c ∈ cells, AlphaCropR.ValidCell c)
    (s1 s2 : ℝ) (h1 : 1 ≤ s1) (h12 : s1 ≤ s2) :
    AlphaCropR.avgRadius half cells s1 ≤ AlphaCropR.avgRadius half cells s2 := by
  rw [AlphaCropR.avgRadius, AlphaCropR.avgRadius]
  rcases Nat.eq_zero_or_pos cells.length with h0 | hpos
  · rw [List.length_eq_zero.mp h0]
    simp
  · have hlen : (0 : ℝ) < (cells.length : ℝ) := by exact_mod_cast hpos
    refine (div_le_div_iff_of_pos_right hlen).mpr (List.sum_le_sum ?_)
    intro c hmem
    exact AlphaCropR.emittedRadius_mono hhalf (hc c hmem) h1 h12

/-- A single opaque black cell (full coverage). -/
def blackCell : AlphaCropR.Cell :=
  ⟨0, 0, 0, 1, 255⟩

theorem strength_monotone_avg_radius_witness :
    (0 : ℝ) ≤ 5 ∧ (1 : ℝ) ≤ 100 ∧ (100 : ℝ) ≤ 200
      ∧ AlphaCropR.avgRadius 5 [blackCell] 100 ≤ AlphaCropR.avgRadius 5 [blackCell] 200 :=
  ⟨by norm_num, by norm_num, by norm_num,
   strength_monotone_avg_radius 5 (by norm_num) [blackCell]
     (by
       intro c hmem
       rw [List.mem_singleton] at hmem
       subst hmem
       refine ⟨by norm_num [blackCell], by norm_num [blackCell], by norm_num [blackCell],
         by norm_num [blackCell], by norm_num [blackCell], by norm_num [blackCell],
         by norm_num [blackCell], by norm_num [blackCell]⟩)
     100 200 (by norm_num) (by norm_num)⟩

/-- A mid-gray cell with full coverage. -/
def grayCell : AlphaCropR.Cell :=
  ⟨128, 128, 128, 1, 255⟩

/-- C6 counterexample: the alpha-crop variant computes
`sNorm = clamp((Number(strength) || 100) / 100, 0, 2.5)`, and the JS `||`
treats the explicit strength 0 as falsy, substituting the baseline 100.
Consequently raising strength from 0 to 50 on a mid-gray image strictly
decreases the average dot radius — the claim "increasing the strength
parameter never decreases the average dot radius" fails at strength 0. -/
theorem strength_not_monotone_at_zero_cex :
    AlphaCropR.avgRadius 5 [grayCell] 50 < AlphaCropR.avgRadius 5 [grayCell] 0 := by
  have hdark : AlphaCropR.cellDarkness grayCell = 127 / 255 := by
    rw [AlphaCropR.cellDarkness, AlphaCropR.luminance255]
    norm_num [grayCell]
  have hs0 : AlphaCropR.sNorm 0 = 1 := by
    rw [AlphaCropR.sNorm, if_pos rfl]
    rw [show (100 : ℝ) / 100 = 1 by norm_num]
    exact clamp_eq_self (by norm_num) (by norm_num)
  have hs50 : AlphaCropR.sNorm 50 = 1 / 2 := by
    rw [AlphaCropR.sNorm, if_neg (by norm_num)]
    rw [show (50 : ℝ) / 100 = 1 / 2 by norm_num]
    exact clamp_eq_self (by norm_num) (by norm_num)
  have he0 : AlphaCropR.curveExp 0 = 1 := by
    rw [AlphaCropR.curveExp, hs0, max_eq_right (by norm_num)]
    norm_num
  have he50 : AlphaCropR.curveExp 50 = 2 := by
    rw [AlphaCropR.curveExp, hs50, max_eq_right (by norm_num)]
    norm_num
  have hg0 : AlphaCropR.radiusGain 0 = 1.8 := by
    rw [AlphaCropR.radiusGain, hs0]
    norm_num
  have hg50 : AlphaCropR.radiusGain 50 = 1.375 := by
    rw [AlphaCropR.radiusGain, hs50]
    norm_num
  have hdc0 : AlphaCropR.darknessCurved (127 / 255) 0 = 127 / 255 := by
    rw [AlphaCropR.darknessCurved, he0, Real.rpow_one]
    exact clamp_eq_self (by norm_num) (by norm_num)
  have hdc50 : AlphaCropR.darknessCurved (127 / 255) 50 = 16129 / 65025 := by
    rw [AlphaCropR.darknessCurved, he50]
    rw [show (2 : ℝ) = ((2 : ℕ) : ℝ) by norm_num, Real.rpow_natCast]
    rw [show ((127 : ℝ) / 255) ^ (2 : ℕ) = 16129 / 65025 by norm_num]
    exact clamp_eq_self (by norm_num) (by norm_num)
  have hcomb0 : AlphaCropR.combined (127 / 255) 1 0 = 127 / 255 := by
    rw [AlphaCropR.combined, hdc0]
    rw [show (0.60 : ℝ) + 0.40 * 1 = 1 by norm_num, mul_one]
    exact clamp_eq_self (by norm_num) (by norm_num)
  have hcomb50 : AlphaCropR.combined (127 / 255) 1 50 = 16129 / 65025 := by
    rw [AlphaCropR.combined, hdc50]
    rw [show (0.60 : ℝ) + 0.40 * 1 = 1 by norm_num, mul_one]
    exact clamp_eq_self (by norm_num) (by norm_num)
  have hr0 : AlphaCropR.radius 5 (127 / 255) 1 0 = 2001 / 425 := by
    rw [AlphaCropR.radius, hcomb0, hg0]
    rw [show ((0.05 : ℝ) + 0.95 * (127 / 255)) * 1.8 = 2001 / 2125 by norm_num]
    rw [clamp_eq_self (by norm_num) (by norm_num)]
    norm_num
  have hr50 : AlphaCropR.radius 5 (127 / 255) 1 50 = 1021559 / 520200 := by
    rw [AlphaCropR.radius, hcomb50, hg50]
    rw [show ((0.05 : ℝ) + 0.95 * (16129 / 65025)) * 1.375 = 1021559 / 2601000 by norm_num]
    rw [clamp_eq_self (by norm_num) (by norm_num)]
    norm_num
  have hcov : ¬ (grayCell.cov < 0.03) := by norm_num [grayCell]
  have ha : ¬ (grayCell.aSum ≤ 1e-6) := by norm_num [grayCell]
  rw [AlphaCropR.avgRadius, AlphaCropR.avgRadius]
  simp only [List.map_cons, List.map_nil, List.sum_cons, List.sum_nil, List.length_cons,
    List.length_nil, add_zero]
  rw [AlphaCropR.emittedRadius, AlphaCropR.emittedRadius, if_neg hcov, if_neg hcov,
    if_neg ha, if_neg ha, hdark, show grayCell.cov = 1 from rfl]
  rw [if_neg (by rw [hr50]; norm_num), if_neg (by rw [hr0]; norm_num), hr50, hr0]
  norm_num

namespace P0R

/-- `const s = clamp(Number(strength ?? 100), 0, 260) / 100` (part_000
uses the nullish operator, so an explicit 0 stays 0). -/
noncomputable def sP (strength : ℝ) : ℝ :=
  clamp strength 0 260 / 100

/-- `const gamma = clamp(1.0 / (0.85 + 0.55 * s), 0.45, 1.2)`. -/
noncomputable def gammaP (strength : ℝ) : ℝ :=
  clamp (1.0 / (0.85 + 0.55 * sP strength)) 0.45 1.2

/-- `let dark = clamp(baseDark * s, 0, 1); dark = Math.pow(dark, gamma)`. -/
noncomputable def darkAdj (baseDark strength : ℝ) : ℝ :=
  clamp (baseDark * sP strength) 0 1 ^ gammaP strength

/-- `const alphaScale = Math.sqrt(avgAlpha)`. -/
noncomputable def alphaScale (avgAlpha : ℝ) : ℝ :=
  Real.sqrt avgAlpha

/-- Part_000's dot radius with `minFrac = 0.08` and `maxFrac = 1.15`:
`radius = half * (minFrac + (maxFrac - minFrac) * dark)` then
`radius *= alphaScale`.  `maxFrac = 1.15` deliberately lets the radius
exceed the half-cell width. -/
noncomputable def radiusP (half baseDark strength avgAlpha : ℝ) : ℝ :=
  half * (0.08 + (1.15 - 0.08) * darkAdj baseDark strength) * alphaScale avgAlpha

end P0R

/-- C7 counterexample: in part_000, a fully opaque black cell at
strength 100 with cellSize 10 (half-cell 5) produces radius
`5 * (0.08 + 1.07 * 1) * sqrt(1) = 5.75`, which exceeds the half-cell
width 5 and clears the 0.35 emission floor — so "the dot's radius never
exceeds the cell's half-width, for every input raster and parameter set"
is false. -/
theorem radius_exceeds_half_cell_cex :
    P0R.radiusP 5 1 100 1 = 5.75
      ∧ (5 : ℝ) < P0R.radiusP 5 1 100 1
      ∧ ¬ (P0R.radiusP 5 1 100 1 < 0.35) := by
  have hsp : P0R.sP 100 = 1 := by
    rw [P0R.sP, clamp_eq_self (by norm_num) (by norm_num)]
    norm_num
  have hg : P0R.gammaP 100 = 1 / 1.4 := by
    rw [P0R.gammaP, hsp]
    rw [show (1.0 : ℝ) / (0.85 + 0.55 * 1) = 1 / 1.4 by norm_num]
    exact clamp_eq_self (by norm_num) (by norm_num)
  have hd : P0R.darkAdj 1 100 = 1 := by
    rw [P0R.darkAdj, hsp, mul_one, clamp_eq_self (by norm_num) (by norm_num)]
    exact Real.one_rpow _
  have hsq : P0R.alphaScale 1 = 1 := by
    rw [P0R.alphaScale]
    exact Real.sqrt_one
  rw [P0R.radiusP, hd, hsq]
  norm_num

/-- C7 amended: the alpha-crop variant's radius is always clamped to the
half-cell width, but part_000 deliberately allows overlap: its radius can
reach `1.15 ×` the half-cell width (and no more, for a valid average
alpha), so the general invariant is `radius ≤ 1.15 × halfCellWidth`. -/
theorem dot_radius_bounds (half d cov s avgA baseDark : ℝ)
    (hhalf : 0 ≤ half) (_hA0 : 0 ≤ avgA) (hA1 : avgA ≤ 1) :
    AlphaCropR.radius half d cov s ≤ half
      ∧ P0R.radiusP half baseDark s avgA ≤ 1.15 * half := by
  constructor
  · rw [AlphaCropR.radius]
    exact mul_le_of_le_one_right hhalf (clamp_le_hi _ _ _ (by norm_num))
  · rw [P0R.radiusP]
    have hg0 : (0 : ℝ) ≤ P0R.gammaP s :=
      le_trans (by norm_num) (lo_le_clamp _ _ _)
    have hd1 : P0R.darkAdj baseDark s ≤ 1 := by
      rw [P0R.darkAdj]
      exact Real.rpow_le_one (lo_le_clamp _ _ _)
        (clamp_le_hi _ _ _ (by norm_num)) hg0
    have hd0 : 0 ≤ P0R.darkAdj baseDark s := by
      rw [P0R.darkAdj]
      exact Real.rpow_nonneg (lo_le_clamp _ _ _) _
    have hsq1 : P0R.alphaScale avgA ≤ 1 := by
      rw [P0R.alphaScale]
      exact Real.sqrt_le_one.mpr hA1
    have hsq0 : 0 ≤ P0R.alphaScale avgA := by
      rw [P0R.alphaScale]
      exact Real.sqrt_nonneg _
    have hfrac1 : (0.08 : ℝ) + (1.15 - 0.08) * P0R.darkAdj baseDark s ≤ 1.15 := by
      linarith
    have hfrac0 : (0 : ℝ) ≤ 0.08 + (1.15 - 0.08) * P0R.darkAdj baseDark s := by
      linarith
    calc half * (0.08 + (1.15 - 0.08) * P0R.darkAdj baseDark s) * P0R.alphaScale avgA
        ≤ half * (0.08 + (1.15 - 0.08) * P0R.darkAdj baseDark s) * 1 :=
          mul_le_mul_of_nonneg_left hsq1 (mul_nonneg hhalf hfrac0)
      _ = half * (0.08 + (1.15 - 0.08) * P0R.darkAdj baseDark s) := by ring
      _ ≤ half * 1.15 := mul_le_mul_of_nonneg_left hfrac1 hhalf
      _ = 1.15 * half := by ring

theorem dot_radius_bounds_witness :
    (0 : ℝ) ≤ 5 ∧ (0 : ℝ) ≤ 1 ∧ (1 : ℝ) ≤ 1
      ∧ AlphaCropR.radius 5 1 1 100 ≤ 5
      ∧ P0R.radiusP 5 1 100 1 ≤ 1.15 * 5 :=
  ⟨by norm_num, by norm_num, by norm_num,
   (dot_radius_bounds 5 1 1 100 1 1 (by norm_num) (by norm_num) (by norm_num)).1,
   (dot_radius_bounds 5 1 1 100 1 1 (by norm_num) (by norm_num) (by norm_num)).2⟩

namespace AlphaCropR

/-- Per-cell accumulator of the alpha-crop sampling loop: coverage count of
pixels with alpha above the bbox threshold, and alpha-weighted channel sums
over pixels above the sampling cutoff. -/
structure CAcc where
  opaqueCount : ℕ
  aSum : ℝ
  rSum : ℝ
  gSum : ℝ
  bSum : ℝ

/-- One pixel of the alpha-crop cell loop: `opaqueCount++` when
`a255 > ALPHA_BBOX_THRESHOLD` (8); pixels with `a <= 16/255` are then
skipped for the color average (`ALPHA_SAMPLE_CUTOFF`), the rest contribute
alpha-weighted channel sums. -/
noncomputable def sampleStepR (acc : CAcc) (p : RGBA) : CAcc :=
  let oc := if 8 < p.a then acc.opaqueCount + 1 else acc.opaqueCount
  if (p.a : ℝ) / 255 ≤ 16 / 255 then
    { acc with opaqueCount := oc }
  else
    { opaqueCount := oc
      aSum := acc.aSum + (p.a : ℝ) / 255
      rSum := acc.rSum + (p.r : ℝ) * ((p.a : ℝ) / 255)
      gSum := acc.gSum + (p.g : ℝ) * ((p.a : ℝ) / 255)
      bSum := acc.bSum + (p.b : ℝ) * ((p.a : ℝ) / 255) }

/-- An emitted dot of the alpha-crop variant. -/
structure DotR where
  shape : Dtf.Shape
  cx : ℝ
  cy : ℝ
  radius : ℝ
  fillR : ℤ
  fillG : ℤ
  fillB : ℤ
  opacity : ℝ

/-- The alpha-crop variant's per-cell computation, in source order: skip
empty cells, sample, skip when coverage is below `MIN_COVERAGE_TO_DRAW`
or `aSum <= 1e-6`, round the alpha-weighted average color, derive the
strength-curved radius, skip micro-dots, and emit the shape with opacity
`clamp(coverage * alphaGain, 0, 1)`. -/
noncomputable def cellDotR (cs : ℕ) (dotShape : Dtf.Shape) (strength : ℝ)
    (img : Raster) (x0 x1 y0 y1 : ℕ) : Option DotR :=
  if (x1 - x0) * (y1 - y0) = 0 then none
  else
    let acc := (Dtf.cellPixels img x0 x1 y0 y1).foldl sampleStepR ⟨0, 0, 0, 0, 0⟩
    let coverage := clamp ((acc.opaqueCount : ℝ) / (((x1 - x0) * (y1 - y0) : ℕ) : ℝ)) 0 1
    if coverage < 0.03 then none
    else if acc.aSum ≤ 1e-6 then none
    else
      let r : ℤ := round (acc.rSum / acc.aSum)
      let g : ℤ := round (acc.gSum / acc.aSum)
      let b : ℤ := round (acc.bSum / acc.aSum)
      let rad := radius ((cs : ℝ) / 2)
        (1 - luminance255 (r : ℝ) (g : ℝ) (b : ℝ) / 255) coverage strength
      if rad < 0.28 then none
      else
        some
          { shape := dotShape
            cx := (x0 : ℝ) + ((x1 : ℝ) - (x0 : ℝ)) / 2
            cy := (y0 : ℝ) + ((y1 : ℝ) - (y0 : ℝ)) / 2
            radius := rad
            fillR := r
            fillG := g
            fillB := b
            opacity := clamp (coverage * alphaGain strength) 0 1 }

/-- The full sequence of dot descriptors of the alpha-crop variant over the
working raster, in the loop's row-major cell order. -/
noncomputable def dots (img : Raster) (cellSize : ℤ) (dotShape : Dtf.Shape)
    (strength : ℝ) : List DotR :=
  let cs := (AlphaCrop.csOf cellSize).toNat
  (List.range (AlphaCrop.ceilDiv img.h cs)).flatMap fun row =>
    (List.range (AlphaCrop.ceilDiv img.w cs)).filterMap fun col =>
      cellDotR cs dotShape strength img (col * cs) (min (col * cs + cs) img.w)
        (row * cs) (min (row * cs + cs) img.h)

end AlphaCropR

/-- The only request-external inputs the route reads while naming the
output object: `Date.now()` and `Math.floor(Math.random() * 1e6)`. -/
structure RouteEnv where
  now : ℕ
  rand : ℕ
deriving DecidableEq, Repr

/-- `outputs/ht_${Date.now()}_${Math.floor(Math.random() * 1e6)}.png`,
embedded as the pair of nondeterministic components. -/
def outputKeyOf (e : RouteEnv) : ℕ × ℕ := (e.now, e.rand)

/-- What the route produces from a decoded working raster: the
environment-derived storage key and the core's dot sequence. -/
structure ProcessOut where
  outputKey : ℕ × ℕ
  dotList : List AlphaCropR.DotR

/-- The route around the core: only the storage key consumes the
environment; the dot pipeline receives the raster and parameters alone. -/
noncomputable def processHalftone (e : RouteEnv) (img : Raster) (cellSize : ℤ)
    (dotShape : Dtf.Shape) (strength : ℝ) : ProcessOut :=
  ⟨outputKeyOf e, AlphaCropR.dots img cellSize dotShape strength⟩

/-- C10: the halftone core is deterministic.  The cell-sampling,
dot-geometry and compositing computation is a pure function of the decoded
raster and the parameters: under any two route environments (time and
randomness), the dot-descriptor sequences — and hence the composited
output — are identical; the environment reaches only the storage key. -/
theorem halftone_core_deterministic (e1 e2 : RouteEnv) (img : Raster)
    (cellSize : ℤ) (dotShape : Dtf.Shape) (strength : ℝ) :
    (processHalftone e1 img cellSize dotShape strength).dotList
        = (processHalftone e2 img cellSize dotShape strength).dotList
      ∧ AlphaCropR.dots img cellSize dotShape strength
        = AlphaCropR.dots img cellSize dotShape strength :=
  ⟨rfl, rfl⟩
